import Mathlib

/-!
Shallow embedding of `src/web.py` (bercun/productosweb), the SQLite-backed
web-scraper pipeline, together with theorems checking the natural-language
specification against it.

Modelling conventions:
* SQLite tables become Lean lists of row structures; `INTEGER PRIMARY KEY
  AUTOINCREMENT` becomes an explicit next-id counter, and a plain
  `SELECT` over a table returns its rows in rowid (insertion) order,
  which is SQLite's behaviour for a simple table scan.
* `CURRENT_TIMESTAMP` (second resolution) is an oracle `clock : Nat → Nat`
  sampled at the row id being written; a wall clock is monotone
  (nondecreasing), but distinct writes inside the same second read equal
  values.
* `requests.get(url, timeout=10)` followed by
  `BeautifulSoup(response.text, "html.parser")` is an oracle
  `fetch : String → Except String NodeList`: either the parsed document
  or the message of the raised exception (timeout, DNS failure, ...).
* Parsed HTML is a forest of nodes; `soup.select(sel)` for the simple
  class / tag selectors exercised here is a preorder (document-order)
  traversal collecting matching elements; `element.text` concatenates all
  string descendants and `.strip()` trims ASCII whitespace, as in Python.
* Availability of the SQLite file for the per-job
  `with DatabaseConnection() as conn` block is an oracle
  `avail : Nat → Bool` indexed by the job's position in the snapshot;
  an unavailable store makes `sqlite3.connect` raise, and the exception
  escapes `scrape_thread`, which the model records in the `fatal` field
  of the run's result.
-/

set_option autoImplicit false

/-- Decidable equality for `Except`, needed to evaluate the embedding on
concrete inputs. -/
instance {ε α : Type} [DecidableEq ε] [DecidableEq α] : DecidableEq (Except ε α) := fun a b =>
  match a, b with
  | Except.error x, Except.error y => decidable_of_iff (x = y) (by simp)
  | Except.error _, Except.ok _ => Decidable.isFalse (by simp)
  | Except.ok _, Except.error _ => Decidable.isFalse (by simp)
  | Except.ok x, Except.ok y => decidable_of_iff (x = y) (by simp)

namespace ProductosWeb

/-! ## Markup model (BeautifulSoup document, as used by `scrape_url`) -/

mutual

/-- A parsed markup node: a bare string, or an element with a tag name,
a class list and child nodes. -/
inductive Node where
  | text : String → Node
  | elem : String → List String → NodeList → Node
  deriving DecidableEq

/-- A forest of sibling nodes (also used as the whole document). -/
inductive NodeList where
  | nil : NodeList
  | cons : Node → NodeList → NodeList
  deriving DecidableEq

end

mutual

/-- Concatenated text content of a node, as BeautifulSoup's `.text`
(all string descendants, in document order). -/
def textContent : Node → String
  | .text s => s
  | .elem _ _ children => textContentList children

/-- Concatenated text content of a forest of nodes. -/
def textContentList : NodeList → String
  | .nil => ""
  | .cons n ns => textContent n ++ textContentList ns

end

/-- The simple CSS selectors the application stores: a class selector
`.name` or a bare tag selector. -/
inductive SimpleSel where
  | cls : String → SimpleSel
  | tag : String → SimpleSel
  deriving DecidableEq

/-- Parse a selector string the way soupsieve reads the simple grammar:
`.name` is a class selector, a bare word is a tag selector, and the
empty string or a lone dot is a syntax error (soupsieve raises). -/
def selParse (sel : String) : Option SimpleSel :=
  match sel.data with
  | [] => none
  | c :: rest =>
    if c = '.' then
      match rest with
      | [] => none
      | _ => some (SimpleSel.cls (String.mk rest))
    else some (SimpleSel.tag sel)

/-- Whether an element with the given tag and class list matches a
simple selector. -/
def selMatches : SimpleSel → String → List String → Bool
  | SimpleSel.cls c, _, classes => classes.contains c
  | SimpleSel.tag t, tag, _ => tag == t

mutual

/-- All element nodes in a node's subtree matching the selector, in
document (preorder) order, as `soup.select` returns them. -/
def selectNode (q : SimpleSel) : Node → List Node
  | .text _ => []
  | .elem t cl ch =>
    (if selMatches q t cl then [Node.elem t cl ch] else []) ++ selectNodeList q ch

/-- All matching element nodes of a forest, in document order. -/
def selectNodeList (q : SimpleSel) : NodeList → List Node
  | .nil => []
  | .cons n ns => selectNode q n ++ selectNodeList q ns

end

/-- Python whitespace for `str.strip()` (ASCII range). -/
def pySpace (c : Char) : Bool :=
  c == ' ' || c == '\t' || c == '\n' || c == '\r' || c == '\x0b' || c == '\x0c'

/-- Python `str.strip()`: drop leading and trailing whitespace. -/
def strip (s : String) : String :=
  String.mk (((s.data.dropWhile pySpace).reverse.dropWhile pySpace).reverse)

/-- The extraction step of `scrape_url` (web.py line 111-112):
`soup.select(selector)` followed by `[result.text.strip() for result in results]`.
An invalid selector makes soupsieve raise, modelled as `Except.error`
carrying the exception's message. -/
def extractE (doc : NodeList) (sel : String) : Except String (List String) :=
  match selParse sel with
  | none => Except.error ("SelectorSyntaxError: " ++ sel)
  | some q => Except.ok ((selectNodeList q doc).map (fun e => strip (textContent e)))

/-- WebScraperGUI.scrape_url (web.py lines 106-114): fetch the url, parse,
select and strip; any exception raised in the `try` block (timeout,
network error, invalid selector) is caught and turned into the
single-element list of the formatted error string. -/
def scrape_url (fetch : String → Except String NodeList) (url sel : String) : List String :=
  match fetch url with
  | Except.error msg => ["Error: " ++ msg]
  | Except.ok doc =>
    match extractE doc sel with
    | Except.error msg => ["Error: " ++ msg]
    | Except.ok frags => frags

/-! ## Database model (`urls` and `results` tables of create_database) -/

/-- One row of the `urls` table: `(id INTEGER PRIMARY KEY AUTOINCREMENT,
url TEXT NOT NULL, selector TEXT NOT NULL)`. -/
structure UrlRow where
  id : Nat
  url : String
  selector : String
  deriving DecidableEq

/-- One row of the `results` table: `(id INTEGER PRIMARY KEY AUTOINCREMENT,
url_id INTEGER, result TEXT, timestamp DATETIME DEFAULT CURRENT_TIMESTAMP)`. -/
structure ResultRow where
  id : Nat
  urlId : Nat
  result : String
  timestamp : Nat
  deriving DecidableEq

/-- The whole store: both tables plus their AUTOINCREMENT counters. -/
structure DB where
  urls : List UrlRow
  results : List ResultRow
  nextUrlId : Nat
  nextResultId : Nat
  deriving DecidableEq

/-- The store right after WebScraperGUI.create_database on a fresh file:
both tables empty, AUTOINCREMENT counters at 1. -/
def emptyDB : DB := ⟨[], [], 1, 1⟩

/-- Python truthiness of a string: non-empty. `if url and selector:` in
add_url tests exactly this, so whitespace-only strings pass. -/
def truthy (s : String) : Bool := !(s == "")

/-- WebScraperGUI.add_url (web.py lines 81-96): insert the pair when both
strings are truthy (Python non-empty), otherwise show an error dialog and
leave the store untouched. The Bool reports whether the insert happened. -/
def add_url (db : DB) (url selector : String) : DB × Bool :=
  if truthy url && truthy selector then
    ({ db with
        urls := db.urls ++ [⟨db.nextUrlId, url, selector⟩],
        nextUrlId := db.nextUrlId + 1 },
      true)
  else (db, false)

/-- WebScraperGUI.load_urls (web.py lines 98-104): `SELECT url, selector
FROM urls`, in rowid (insertion) order. -/
def load_urls (db : DB) : List (String × String) :=
  db.urls.map (fun r => (r.url, r.selector))

/-- A sequence of add_url calls, in order. -/
def runAdds (db : DB) : List (String × String) → DB
  | [] => db
  | (u, s) :: ops => runAdds (add_url db u s).1 ops

/-- `SELECT id FROM urls WHERE url=?` followed by `fetchone()`: the id of
the first row (in rowid order) whose url equals the argument, if any. -/
def firstIdRows (urls : List UrlRow) (url : String) : Option Nat :=
  (urls.find? (fun r => r.url == url)).map (fun r => r.id)

/-- The same lookup against a full store (web.py lines 129-130). -/
def firstIdForUrl (db : DB) (url : String) : Option Nat :=
  firstIdRows db.urls url

/-! ## The scraping run (`start_scraping` and its inner `scrape_thread`) -/

/-- An exception that escapes `scrape_thread` and kills the run:
either sqlite3 raising because the store is unavailable, or the
`TypeError` from indexing `fetchone()`'s `None` on web.py line 130. -/
inductive RunError where
  | storage : String → RunError
  | noneIndex : RunError
  deriving DecidableEq

/-- Result of one run of `scrape_thread`: the store afterwards, the
`(url, fragment)` lines written to the results pane in order, and the
exception that terminated the run early, if any (`none` means the run
completed). -/
structure RunResult where
  db : DB
  emitted : List (String × String)
  fatal : Option RunError
  deriving DecidableEq

/-- The inner `for result in results:` loop of scrape_thread (web.py lines
132-136): insert one `results` row per fragment, sampling
CURRENT_TIMESTAMP at each insert, and emit the fragment to the results
pane. Returns the store afterwards and the emitted lines. -/
def insertResults (clock : Nat → Nat) (uid : Nat) (url : String) :
    List String → DB → DB × List (String × String)
  | [], db => (db, [])
  | f :: fs, db =>
    let db1 : DB :=
      { db with
          results := db.results ++ [⟨db.nextResultId, uid, f, clock db.nextResultId⟩],
          nextResultId := db.nextResultId + 1 }
    let p := insertResults clock uid url fs db1
    (p.1, (url, f) :: p.2)

/-- The `scrape_thread` closure of WebScraperGUI.start_scraping (web.py
lines 118-136): walk the snapshot sequentially; for each job first run
scrape_url, then open a store connection (position-indexed availability
oracle; an unavailable store raises and the exception escapes), look up
the first urls row matching the job's url (`fetchone()[0]` raises on no
match), and insert one results row per fragment. -/
def scrape_thread (fetch : String → Except String NodeList) (clock : Nat → Nat)
    (avail : Nat → Bool) : List (String × String) → Nat → DB → RunResult
  | [], _, db => ⟨db, [], none⟩
  | (url, sel) :: rest, k, db =>
    let frags := scrape_url fetch url sel
    if avail k then
      match firstIdForUrl db url with
      | none => ⟨db, [], some RunError.noneIndex⟩
      | some uid =>
        let p := insertResults clock uid url frags db
        let r := scrape_thread fetch clock avail rest (k + 1) p.1
        ⟨r.db, p.2 ++ r.emitted, r.fatal⟩
    else ⟨db, [], some (RunError.storage "unable to open database file")⟩

/-- A unit of concurrent work dispatched by start_scraping: web.py line
139 spawns a single background thread whose target runs the whole
snapshot. -/
inductive WorkUnit where
  | batch : List (String × String) → WorkUnit
  deriving DecidableEq

/-- WebScraperGUI.start_scraping (web.py lines 116-139): exactly one call
to `threading.Thread(...).start()`, carrying the entire snapshot. -/
def start_scraping (snapshot : List (String × String)) : List WorkUnit :=
  [WorkUnit.batch snapshot]

/-- The always-available store oracle (sqlite3.connect succeeds on every
job). -/
def availAlways : Nat → Bool := fun _ => true

/-! ## Derived descriptions of a completed run, used to state theorems -/

/-- The `(url, fragment)` lines a completed run emits, job after job in
snapshot order. -/
def runEmit (fetch : String → Except String NodeList) :
    List (String × String) → List (String × String)
  | [] => []
  | p :: rest => (scrape_url fetch p.1 p.2).map (fun f => (p.1, f)) ++ runEmit fetch rest

/-- All fragments a run produces, job after job in snapshot order. -/
def fragsConcat (fetch : String → Except String NodeList) :
    List (String × String) → List String
  | [] => []
  | p :: rest => scrape_url fetch p.1 p.2 ++ fragsConcat fetch rest

/-- The block of results rows one job's fragments generate, starting at
the given next AUTOINCREMENT id. -/
def mkRows (clock : Nat → Nat) (uid : Nat) : List String → Nat → List ResultRow
  | [], _ => []
  | f :: fs, n => ⟨n, uid, f, clock n⟩ :: mkRows clock uid fs (n + 1)

/-- The results rows a completed run appends, job after job in snapshot
order, each job's fragments stored under the id of the first urls row
matching the job's url. -/
def runTrace (fetch : String → Except String NodeList) (clock : Nat → Nat)
    (urls : List UrlRow) : List (String × String) → Nat → List ResultRow
  | [], _ => []
  | p :: rest, n =>
    match firstIdRows urls p.1 with
    | none => []
    | some uid =>
      mkRows clock uid (scrape_url fetch p.1 p.2) n
        ++ runTrace fetch clock urls rest (n + (scrape_url fetch p.1 p.2).length)

/-! ## Concrete fixtures used to evaluate the embedding -/

/-- The spec's example document:
`<div class="item">A</div><div class="item"> B </div>`. -/
def exDoc : NodeList :=
  NodeList.cons (Node.elem "div" ["item"] (NodeList.cons (Node.text "A") NodeList.nil))
    (NodeList.cons (Node.elem "div" ["item"] (NodeList.cons (Node.text " B ") NodeList.nil))
      NodeList.nil)

/-- A fetch oracle: the url "bad" times out, every other url returns the
example document. -/
def fetchW : String → Except String NodeList :=
  fun u => if u = "bad" then Except.error "timed out" else Except.ok exDoc

/-- A store with two registered jobs, ids 1 and 2. -/
def dbW : DB := ⟨[⟨1, "good", ".item"⟩, ⟨2, "bad", ".item"⟩], [], 3, 1⟩

/-- The snapshot the run takes over `dbW`. -/
def snapW : List (String × String) := [("good", ".item"), ("bad", ".item")]

/-- A strictly increasing wall clock. -/
def clock0 : Nat → Nat := fun n => n

/-- A document in which `.a` matches the element with text "A" and `.b`
the element with text "B". -/
def docDup : NodeList :=
  NodeList.cons (Node.elem "div" ["a"] (NodeList.cons (Node.text "A") NodeList.nil))
    (NodeList.cons (Node.elem "p" ["b"] (NodeList.cons (Node.text "B") NodeList.nil))
      NodeList.nil)

/-- A fetch oracle that always returns `docDup`. -/
def fetchDup : String → Except String NodeList := fun _ => Except.ok docDup

/-- Two distinct registered jobs with equal urls but different selectors. -/
def dbDup : DB := ⟨[⟨1, "u", ".a"⟩, ⟨2, "u", ".b"⟩], [], 3, 1⟩

/-- A fetch oracle that always times out. -/
def fetch5 : String → Except String NodeList := fun _ => Except.error "timed out"

/-- The wall clock when an entire experiment happens inside one second:
CURRENT_TIMESTAMP reads the same value at every write. -/
def clock7 : Nat → Nat := fun _ => 7

/-- A store with a single registered job. -/
def db5 : DB := ⟨[⟨1, "u", ".item"⟩], [], 2, 1⟩

/-! ## Helper lemmas about the run -/

theorem insertResults_eq (clock : Nat → Nat) (uid : Nat) (url : String) :
    ∀ (fs : List String) (db : DB),
      insertResults clock uid url fs db =
        ({ db with
            results := db.results ++ mkRows clock uid fs db.nextResultId,
            nextResultId := db.nextResultId + fs.length },
          fs.map (fun f => (url, f))) := by
  intro fs
  induction fs with
  | nil =>
      intro db
      rcases db with ⟨us, rs, nu, nr⟩
      simp [insertResults, mkRows]
  | cons f fs ih =>
      intro db
      rcases db with ⟨us, rs, nu, nr⟩
      simp [insertResults, mkRows, ih, List.append_assoc]
      omega

theorem mkRows_length (clock : Nat → Nat) (uid : Nat) :
    ∀ (fs : List String) (n : Nat), (mkRows clock uid fs n).length = fs.length := by
  intro fs
  induction fs with
  | nil => intro n; simp [mkRows]
  | cons f fs ih => intro n; simp [mkRows, ih]

theorem mkRows_map_result (clock : Nat → Nat) (uid : Nat) :
    ∀ (fs : List String) (n : Nat),
      (mkRows clock uid fs n).map (fun r => r.result) = fs := by
  intro fs
  induction fs with
  | nil => intro n; simp [mkRows]
  | cons f fs ih => intro n; simp [mkRows, ih]

theorem mkRows_mem (clock : Nat → Nat) (uid : Nat) :
    ∀ (fs : List String) (n : Nat) (r : ResultRow), r ∈ mkRows clock uid fs n →
      n ≤ r.id ∧ r.id < n + fs.length ∧ r.timestamp = clock r.id ∧ r.urlId = uid := by
  intro fs
  induction fs with
  | nil => intro n r h; simp [mkRows] at h
  | cons f fs ih =>
      intro n r h
      simp only [mkRows, List.mem_cons] at h
      rcases h with h | h
      · subst h
        refine ⟨Nat.le_refl n, by simp, rfl, rfl⟩
      · obtain ⟨h1, h2, h3, h4⟩ := ih (n + 1) r h
        exact ⟨by omega, by simp; omega, h3, h4⟩

theorem scrape_thread_ok (fetch : String → Except String NodeList) (clock : Nat → Nat) :
    ∀ (snap : List (String × String)) (k : Nat) (db : DB),
      (∀ p ∈ snap, (firstIdForUrl db p.1).isSome = true) →
      scrape_thread fetch clock availAlways snap k db =
        ⟨{ db with
            results := db.results ++ runTrace fetch clock db.urls snap db.nextResultId,
            nextResultId :=
              db.nextResultId + (runTrace fetch clock db.urls snap db.nextResultId).length },
          runEmit fetch snap, none⟩ := by
  intro snap
  induction snap with
  | nil =>
      intro k db _
      rcases db with ⟨us, rs, nu, nr⟩
      simp [scrape_thread, runTrace, runEmit]
  | cons p rest ih =>
      intro k db hres
      obtain ⟨u, s⟩ := p
      rcases db with ⟨us, rs, nu, nr⟩
      have h1 : (firstIdForUrl ⟨us, rs, nu, nr⟩ u).isSome = true :=
        hres (u, s) (List.mem_cons_self _ _)
      obtain ⟨uid, huid⟩ := Option.isSome_iff_exists.mp h1
      have hres2 : ∀ p ∈ rest,
          (firstIdForUrl ⟨us, rs ++ mkRows clock uid (scrape_url fetch u s) nr, nu,
            nr + (scrape_url fetch u s).length⟩ p.1).isSome = true := by
        intro p hp
        exact hres p (List.mem_cons_of_mem _ hp)
      have hid : firstIdRows us u = some uid := huid
      simp only [scrape_thread, availAlways, if_true, huid, insertResults_eq]
      rw [ih (k + 1) _ hres2]
      simp only [runTrace, runEmit, hid, firstIdForUrl] at *
      simp [List.append_assoc, mkRows_length]
      omega

theorem runTrace_mem (fetch : String → Except String NodeList) (clock : Nat → Nat)
    (urls : List UrlRow) :
    ∀ (snap : List (String × String)) (n : Nat) (r : ResultRow),
      r ∈ runTrace fetch clock urls snap n →
      n ≤ r.id ∧ r.id < n + (runTrace fetch clock urls snap n).length
        ∧ r.timestamp = clock r.id := by
  intro snap
  induction snap with
  | nil => intro n r h; simp [runTrace] at h
  | cons p rest ih =>
      intro n r h
      cases huid : firstIdRows urls p.1 with
      | none => rw [runTrace, huid] at h; simp at h
      | some uid =>
          rw [runTrace, huid] at h
          rw [runTrace, huid]
          rcases List.mem_append.mp h with h | h
          · obtain ⟨h1, h2, h3, _⟩ := mkRows_mem clock uid _ n r h
            refine ⟨h1, ?_, h3⟩
            simp [mkRows_length]
            omega
          · obtain ⟨h1, h2, h3⟩ := ih _ r h
            refine ⟨by omega, ?_, h3⟩
            simp [List.length_append, mkRows_length]
            omega

theorem runTrace_map_result (fetch : String → Except String NodeList) (clock : Nat → Nat)
    (urls : List UrlRow) :
    ∀ (snap : List (String × String)) (n : Nat),
      (∀ p ∈ snap, (firstIdRows urls p.1).isSome = true) →
      (runTrace fetch clock urls snap n).map (fun r => r.result) = fragsConcat fetch snap := by
  intro snap
  induction snap with
  | nil => intro n _; simp [runTrace, fragsConcat]
  | cons p rest ih =>
      intro n hres
      obtain ⟨uid, huid⟩ :=
        Option.isSome_iff_exists.mp (hres p (List.mem_cons_self _ _))
      rw [runTrace, huid, fragsConcat]
      rw [List.map_append, mkRows_map_result,
        ih _ (fun p hp => hres p (List.mem_cons_of_mem _ hp))]

theorem scrape_thread_permanent (fetch : String → Except String NodeList) (clock : Nat → Nat)
    (avail : Nat → Bool) :
    ∀ (snap : List (String × String)) (k : Nat) (db : DB),
      ∃ new, (scrape_thread fetch clock avail snap k db).db.results = db.results ++ new
        ∧ (scrape_thread fetch clock avail snap k db).db.urls = db.urls := by
  intro snap
  induction snap with
  | nil => intro k db; exact ⟨[], by simp [scrape_thread]⟩
  | cons p rest ih =>
      intro k db
      obtain ⟨u, s⟩ := p
      by_cases ha : avail k
      · cases huid : firstIdForUrl db u with
        | none => exact ⟨[], by simp [scrape_thread, ha, huid]⟩
        | some uid =>
            obtain ⟨new2, hr, hu⟩ :=
              ih (k + 1) (insertResults clock uid u (scrape_url fetch u s) db).1
            refine ⟨mkRows clock uid (scrape_url fetch u s) db.nextResultId ++ new2, ?_, ?_⟩
            · simp only [scrape_thread, ha, if_true, huid]
              rw [hr, insertResults_eq]
              simp [List.append_assoc]
            · simp only [scrape_thread, ha, if_true, huid]
              rw [hu, insertResults_eq]
      · exact ⟨[], by simp [scrape_thread, ha]⟩

theorem scrape_thread_stops (fetch : String → Except String NodeList) (clock : Nat → Nat) :
    ∀ (pre : List (String × String)) (q : String × String) (post : List (String × String))
      (k : Nat) (db : DB) (avail : Nat → Bool),
      (∀ j, k ≤ j → j < k + pre.length → avail j = true) →
      avail (k + pre.length) = false →
      (∀ p ∈ pre, (firstIdForUrl db p.1).isSome = true) →
      scrape_thread fetch clock avail (pre ++ q :: post) k db =
        ⟨{ db with
            results := db.results ++ runTrace fetch clock db.urls pre db.nextResultId,
            nextResultId :=
              db.nextResultId + (runTrace fetch clock db.urls pre db.nextResultId).length },
          runEmit fetch pre, some (RunError.storage "unable to open database file")⟩ := by
  intro pre
  induction pre with
  | nil =>
      intro q post k db avail _ hfail _
      obtain ⟨u, s⟩ := q
      rcases db with ⟨us, rs, nu, nr⟩
      have hf : avail k = false := by simpa using hfail
      simp [scrape_thread, hf, runTrace, runEmit]
  | cons p pre ih =>
      intro q post k db avail hpre hfail hres
      obtain ⟨u, s⟩ := p
      rcases db with ⟨us, rs, nu, nr⟩
      have ha : avail k = true := hpre k (Nat.le_refl k) (by simp)
      have h1 : (firstIdForUrl ⟨us, rs, nu, nr⟩ u).isSome = true :=
        hres (u, s) (List.mem_cons_self _ _)
      obtain ⟨uid, huid⟩ := Option.isSome_iff_exists.mp h1
      have hid : firstIdRows us u = some uid := huid
      have hpre2 : ∀ j, k + 1 ≤ j → j < k + 1 + pre.length → avail j = true := by
        intro j hj1 hj2
        exact hpre j (by omega) (by simp; omega)
      have hfail2 : avail (k + 1 + pre.length) = false := by
        have he : k + 1 + pre.length = k + (pre.length + 1) := by omega
        rw [he]
        simpa using hfail
      have hres2 : ∀ p2 ∈ pre,
          (firstIdForUrl ⟨us, rs ++ mkRows clock uid (scrape_url fetch u s) nr, nu,
            nr + (scrape_url fetch u s).length⟩ p2.1).isSome = true := by
        intro p2 hp2
        exact hres p2 (List.mem_cons_of_mem _ hp2)
      simp only [List.cons_append, scrape_thread, ha, if_true, huid, insertResults_eq]
      simp only [List.append_eq]
      rw [ih q post (k + 1) _ avail hpre2 hfail2 hres2]
      simp only [runTrace, runEmit, hid, firstIdForUrl] at *
      simp [List.append_assoc, mkRows_length]
      omega

theorem find?_self_of_distinct :
    ∀ (urls : List UrlRow), urls.Pairwise (fun a b => a.url ≠ b.url) →
      ∀ j ∈ urls, urls.find? (fun r => r.url == j.url) = some j := by
  intro urls
  induction urls with
  | nil => intro _ j hj; simp at hj
  | cons r rest ih =>
      intro h j hj
      obtain ⟨hhead, htail⟩ := List.pairwise_cons.mp h
      rcases List.mem_cons.mp hj with rfl | hj2
      · simp [List.find?]
      · have hne : (r.url == j.url) = false := by
          simp [hhead j hj2]
        simp [List.find?, hne, ih htail j hj2]

/-! ## Claim theorems -/

/-- C1: for every job in the run's snapshot whose fetch or extract stage
fails (timeout, network error, invalid selector), `scrape_url` yields the
single formatted error string `Error: <message>` as that job's only
fragment; the run persists it as a results row, finishes without a fatal
exception, and still processes every other job of the snapshot. -/
theorem c1_per_job_failure_isolated
    (fetch : String → Except String NodeList) (clock : Nat → Nat)
    (snap : List (String × String)) (k : Nat) (db : DB)
    (hres : ∀ p ∈ snap, (firstIdForUrl db p.1).isSome = true) :
    (∀ u s msg, fetch u = Except.error msg → scrape_url fetch u s = ["Error: " ++ msg])
    ∧ (∀ u s doc msg, fetch u = Except.ok doc → extractE doc s = Except.error msg →
        scrape_url fetch u s = ["Error: " ++ msg])
    ∧ (scrape_thread fetch clock availAlways snap k db).fatal = none
    ∧ (scrape_thread fetch clock availAlways snap k db).emitted = runEmit fetch snap
    ∧ (scrape_thread fetch clock availAlways snap k db).db.results
        = db.results ++ runTrace fetch clock db.urls snap db.nextResultId
    ∧ (runTrace fetch clock db.urls snap db.nextResultId).map (fun r => r.result)
        = fragsConcat fetch snap := by
  have h := scrape_thread_ok fetch clock snap k db hres
  refine ⟨?_, ?_, ?_, ?_, ?_, ?_⟩
  · intro u s msg hf
    simp [scrape_url, hf]
  · intro u s doc msg hf he
    simp [scrape_url, hf, he]
  · rw [h]
  · rw [h]
  · rw [h]
  · exact runTrace_map_result fetch clock db.urls snap db.nextResultId hres

/-- C1 witness: over the two-job store `dbW`, the url "bad" times out; its
only fragment is the formatted error string, the run completes with no
fatal exception, and the other job's fragments are all emitted. -/
theorem c1_per_job_failure_isolated_witness :
    scrape_url fetchW "bad" ".item" = ["Error: " ++ "timed out"]
    ∧ (scrape_thread fetchW clock0 availAlways snapW 0 dbW).fatal = none
    ∧ (scrape_thread fetchW clock0 availAlways snapW 0 dbW).emitted = runEmit fetchW snapW := by
  have h := c1_per_job_failure_isolated fetchW clock0 snapW 0 dbW (by decide)
  exact ⟨h.1 "bad" ".item" "timed out" (by decide), h.2.2.1, h.2.2.2.1⟩

/-- C2 counterexample: the store `dbDup` holds two distinct registered
jobs, id 1 with selector ".a" and id 2 with selector ".b", whose url
strings are both "u". Fragment "A" can only come from job 1 and fragment
"B" only from job 2 (each selector matches exactly one element of the
fetched document), yet both ResultRecords carry job_id 1: the record
produced while processing job 2 does not carry job 2's own id. -/
theorem c2_job_id_counterexample :
    dbDup.urls.map (fun r => (r.id, r.url, r.selector)) = [(1, "u", ".a"), (2, "u", ".b")]
    ∧ (scrape_thread fetchDup clock0 availAlways [("u", ".a"), ("u", ".b")] 0 dbDup).db.results.map
        (fun r => (r.urlId, r.result)) = [(1, "A"), (1, "B")]
    ∧ (1 : Nat) ≠ 2 := by decide

/-- C2 amended: every results row appended during a run carries the id of
the FIRST registry row whose url equals the processed snapshot entry's
url (web.py line 129-130 selects by url and indexes `fetchone()`), not
necessarily the entry's own job id; when all registered urls are
pairwise distinct this first match is the job itself, so the row then
does carry the job's own id. -/
theorem c2_first_matching_id :
    (∀ (clock : Nat → Nat) (uid : Nat) (fs : List String) (n : Nat),
        ∀ r ∈ mkRows clock uid fs n, r.urlId = uid)
    ∧ (∀ (fetch : String → Except String NodeList) (clock : Nat → Nat)
          (urls : List UrlRow) (u s : String)
          (rest : List (String × String)) (n uid : Nat),
        firstIdRows urls u = some uid →
        runTrace fetch clock urls ((u, s) :: rest) n =
          mkRows clock uid (scrape_url fetch u s) n
            ++ runTrace fetch clock urls rest (n + (scrape_url fetch u s).length))
    ∧ (∀ db : DB, db.urls.Pairwise (fun a b => a.url ≠ b.url) →
        ∀ j ∈ db.urls, firstIdForUrl db j.url = some j.id) := by
  refine ⟨?_, ?_, ?_⟩
  · intro clock uid fs n r hr
    exact (mkRows_mem clock uid fs n r hr).2.2.2
  · intro fetch clock urls u s rest n uid h
    rw [runTrace, h]
  · intro db hd j hj
    rw [firstIdForUrl, firstIdRows, find?_self_of_distinct db.urls hd j hj]
    rfl

/-- C2 witness: a row built for store id 5 carries url_id 5, and in the
distinct-url store `dbW` the lookup for job 2's url resolves to job 2's
own id. -/
theorem c2_first_matching_id_witness :
    (⟨3, 5, "x", 7⟩ : ResultRow).urlId = 5
    ∧ firstIdForUrl dbW "bad" = some 2 := by
  refine ⟨?_, ?_⟩
  · exact c2_first_matching_id.1 clock7 5 ["x"] 3 ⟨3, 5, "x", 7⟩ (by decide)
  · exact c2_first_matching_id.2.2 dbW (by decide) ⟨2, "bad", ".item"⟩ (by decide)

/-- C3: per-job fetch/extract failures never terminate a run (with the
store available and every snapshot url registered, the run's fatal field
is none whatever the fetch oracle does), while a storage failure is
fatal: when the store becomes unavailable at some position, the run
stops dispatching further work (no fragments, rows or emissions for the
remaining jobs) and the sqlite exception escapes `scrape_thread` as the
run's terminal error rather than being swallowed into an error
fragment. -/
theorem c3_storage_failure_fatal :
    (∀ (fetch : String → Except String NodeList) (clock : Nat → Nat)
        (snap : List (String × String)) (k : Nat) (db : DB),
        (∀ p ∈ snap, (firstIdForUrl db p.1).isSome = true) →
        (scrape_thread fetch clock availAlways snap k db).fatal = none)
    ∧ (∀ (fetch : String → Except String NodeList) (clock : Nat → Nat)
          (pre : List (String × String)) (q : String × String)
          (post : List (String × String)) (k : Nat) (db : DB) (avail : Nat → Bool),
        (∀ j, k ≤ j → j < k + pre.length → avail j = true) →
        avail (k + pre.length) = false →
        (∀ p ∈ pre, (firstIdForUrl db p.1).isSome = true) →
        scrape_thread fetch clock avail (pre ++ q :: post) k db =
          ⟨{ db with
              results := db.results ++ runTrace fetch clock db.urls pre db.nextResultId,
              nextResultId :=
                db.nextResultId + (runTrace fetch clock db.urls pre db.nextResultId).length },
            runEmit fetch pre, some (RunError.storage "unable to open database file")⟩) := by
  constructor
  · intro fetch clock snap k db hres
    rw [scrape_thread_ok fetch clock snap k db hres]
  · intro fetch clock pre q post k db avail hpre hfail hres
    exact scrape_thread_stops fetch clock pre q post k db avail hpre hfail hres

/-- C3 witness: with the store always available the two-job run completes
(fatal is none); with the store unavailable from the start, the run over
the same snapshot performs no job work and terminates with the storage
error surfaced. -/
theorem c3_storage_failure_fatal_witness :
    (scrape_thread fetchW clock0 availAlways snapW 0 dbW).fatal = none
    ∧ scrape_thread fetchW clock0 (fun _ => false) snapW 0 dbW
        = ⟨dbW, [], some (RunError.storage "unable to open database file")⟩ := by
  constructor
  · exact c3_storage_failure_fatal.1 fetchW clock0 snapW 0 dbW (by decide)
  · have h := c3_storage_failure_fatal.2 fetchW clock0 [] ("good", ".item")
      [("bad", ".item")] 0 dbW (fun _ => false)
      (by intro j h1 h2; simp at h2) (by rfl) (by intro p hp; simp at hp)
    simpa [runTrace, runEmit, dbW] using h

/-- C4 counterexample: the claim requires add(" ", "x") (blank,
whitespace-only url) to fail with ValidationError and leave the Registry
unchanged, but `if url and selector:` only tests Python truthiness
(non-emptiness), so the blank url is accepted: the call succeeds and a
new Job row is persisted. -/
theorem c4_blank_accepted_counterexample :
    add_url emptyDB " " "x" = (⟨[⟨1, " ", "x"⟩], [], 2, 1⟩, true)
    ∧ (⟨[⟨1, " ", "x"⟩], [], 2, 1⟩ : DB).urls ≠ emptyDB.urls := by decide

/-- C4 amended: add(url, selector) fails (error dialog, no insert, store
unchanged) exactly when url or selector is the empty string — in
particular add("", "x") and add("x", "") fail without mutating the
Registry — while any non-empty strings, including whitespace-only ones,
are accepted and persisted as a new row. -/
theorem c4_empty_rejected :
    (∀ (db : DB) (u s : String), u = "" ∨ s = "" → add_url db u s = (db, false))
    ∧ (∀ (db : DB) (u s : String), u ≠ "" → s ≠ "" →
        add_url db u s =
          ({ db with
              urls := db.urls ++ [⟨db.nextUrlId, u, s⟩],
              nextUrlId := db.nextUrlId + 1 }, true)) := by
  constructor
  · intro db u s h
    rcases h with rfl | rfl <;> simp [add_url, truthy]
  · intro db u s hu hs
    simp [add_url, truthy, hu, hs]

/-- C4 witness: both empty-argument calls fail and leave the fresh store
unchanged, and the blank-but-non-empty url is persisted. -/
theorem c4_empty_rejected_witness :
    add_url emptyDB "" "x" = (emptyDB, false)
    ∧ add_url emptyDB "x" "" = (emptyDB, false)
    ∧ add_url emptyDB " " "x" =
        ({ emptyDB with
            urls := emptyDB.urls ++ [⟨emptyDB.nextUrlId, " ", "x"⟩],
            nextUrlId := emptyDB.nextUrlId + 1 }, true) :=
  ⟨c4_empty_rejected.1 emptyDB "" "x" (Or.inl rfl),
   c4_empty_rejected.1 emptyDB "x" "" (Or.inr rfl),
   c4_empty_rejected.2 emptyDB " " "x" (by decide) (by decide)⟩

/-- C5 counterexample: both runs of the single registered job happen
within the same wall-clock second (`clock7` reads 7 at every write, as
CURRENT_TIMESTAMP does for writes inside one second), so the two
ResultRecords of the same job carry EQUAL timestamps — not strictly
increasing as the claim requires. -/
theorem c5_equal_timestamp_counterexample :
    (scrape_thread fetch5 clock7 availAlways [("u", ".item")] 0
        (scrape_thread fetch5 clock7 availAlways [("u", ".item")] 0 db5).db).db.results.map
      (fun r => r.timestamp) = [7, 7]
    ∧ ¬ (7 : Nat) < 7 := by decide

/-- C5 amended: running the same snapshot in two successive runs appends
one new ResultRecord per fragment of each run, with every second-run
timestamp greater than or EQUAL to every first-run timestamp (the wall
clock is monotone, but CURRENT_TIMESTAMP has one-second resolution so
equality is possible within a second); previously stored records are
never overwritten, mutated, deleted or deduplicated — every run only
appends to the results table. -/
theorem c5_append_only_monotone
    (fetch : String → Except String NodeList) (clock : Nat → Nat)
    (snap : List (String × String)) (k1 k2 : Nat) (db : DB)
    (hclock : ∀ i j, i ≤ j → clock i ≤ clock j)
    (hres : ∀ p ∈ snap, (firstIdForUrl db p.1).isSome = true) :
    (scrape_thread fetch clock availAlways snap k1 db).db.results
        = db.results ++ runTrace fetch clock db.urls snap db.nextResultId
    ∧ (runTrace fetch clock db.urls snap db.nextResultId).map (fun r => r.result)
        = fragsConcat fetch snap
    ∧ (scrape_thread fetch clock availAlways snap k2
          (scrape_thread fetch clock availAlways snap k1 db).db).db.results
        = (scrape_thread fetch clock availAlways snap k1 db).db.results
            ++ runTrace fetch clock db.urls snap
                (db.nextResultId
                  + (runTrace fetch clock db.urls snap db.nextResultId).length)
    ∧ (∀ a ∈ runTrace fetch clock db.urls snap db.nextResultId,
        ∀ b ∈ runTrace fetch clock db.urls snap
            (db.nextResultId + (runTrace fetch clock db.urls snap db.nextResultId).length),
        a.timestamp ≤ b.timestamp)
    ∧ (∀ (fetch2 : String → Except String NodeList) (clock2 : Nat → Nat)
          (avail2 : Nat → Bool) (snap2 : List (String × String)) (k : Nat) (db2 : DB),
        ∃ new, (scrape_thread fetch2 clock2 avail2 snap2 k db2).db.results
          = db2.results ++ new) := by
  have h1 := scrape_thread_ok fetch clock snap k1 db hres
  have hres2 : ∀ p ∈ snap,
      (firstIdForUrl (scrape_thread fetch clock availAlways snap k1 db).db p.1).isSome
        = true := by
    intro p hp
    rw [h1]
    exact hres p hp
  have h2 := scrape_thread_ok fetch clock snap k2
    (scrape_thread fetch clock availAlways snap k1 db).db hres2
  refine ⟨by rw [h1], runTrace_map_result fetch clock db.urls snap db.nextResultId hres,
    ?_, ?_, ?_⟩
  · rw [h2, h1]
  · intro a ha b hb
    obtain ⟨ha1, ha2, ha3⟩ := runTrace_mem fetch clock db.urls snap db.nextResultId a ha
    obtain ⟨hb1, hb2, hb3⟩ := runTrace_mem fetch clock db.urls snap
      (db.nextResultId + (runTrace fetch clock db.urls snap db.nextResultId).length) b hb
    rw [ha3, hb3]
    exact hclock a.id b.id (by omega)
  · intro fetch2 clock2 avail2 snap2 k db2
    obtain ⟨new, hn, _⟩ := scrape_thread_permanent fetch2 clock2 avail2 snap2 k db2
    exact ⟨new, hn⟩

/-- C5 witness: over the two-job store with a strictly increasing clock,
the first run appends exactly the trace rows to the empty results
table. -/
theorem c5_append_only_monotone_witness :
    (scrape_thread fetchW clock0 availAlways snapW 0 dbW).db.results
      = dbW.results ++ runTrace fetchW clock0 dbW.urls snapW dbW.nextResultId :=
  (c5_append_only_monotone fetchW clock0 snapW 0 0 dbW (fun i j h => h) (by decide)).1

/-- C6: for every document and every selector the engine accepts,
extraction returns one fragment per matched element — each fragment the
element's concatenated text content with leading and trailing whitespace
trimmed — in document order of the matches; on the spec's example markup
with selector ".item" it returns exactly ["A", "B"] in that order. -/
theorem c6_extract_order_trim :
    (∀ (doc : NodeList) (sel : String) (q : SimpleSel) (l : List String),
        selParse sel = some q → extractE doc sel = Except.ok l →
        l = (selectNodeList q doc).map (fun e => strip (textContent e)))
    ∧ extractE exDoc ".item" = Except.ok ["A", "B"] := by
  constructor
  · intro doc sel q l hq hl
    rw [extractE, hq] at hl
    exact (Except.ok.inj hl).symm
  · decide

/-- C6 witness: on the example document the returned fragments are
exactly the stripped text contents of the matched elements, in document
order. -/
theorem c6_extract_order_trim_witness :
    ["A", "B"] = (selectNodeList (SimpleSel.cls "item") exDoc).map
      (fun e => strip (textContent e)) :=
  c6_extract_order_trim.1 exDoc ".item" (SimpleSel.cls "item") ["A", "B"]
    (by decide) (by decide)

/-- C7: after any sequence of add_url calls, load_urls returns exactly the
successfully added (url, selector) pairs, in creation (insertion) order,
appended after whatever the store already listed. -/
theorem c7_list_insertion_order :
    ∀ (db : DB) (ops : List (String × String)),
      load_urls (runAdds db ops)
        = load_urls db ++ ops.filter (fun p => truthy p.1 && truthy p.2) := by
  intro db ops
  induction ops generalizing db with
  | nil => simp [runAdds]
  | cons p ops ih =>
      obtain ⟨u, s⟩ := p
      by_cases h : (truthy u && truthy s) = true
      · rw [runAdds, ih]
        simp [add_url, h, load_urls, List.filter_cons, List.append_assoc]
      · rw [runAdds, ih]
        simp only [add_url, h, if_false, Bool.false_eq_true]
        simp [List.filter_cons, h]

/-- C8: for every document and every selector the engine accepts that
matches zero elements, extraction returns the empty sequence inside a
normal (non-error) result — it does not throw. -/
theorem c8_zero_matches_empty :
    ∀ (doc : NodeList) (sel : String) (q : SimpleSel),
      selParse sel = some q → selectNodeList q doc = [] →
      extractE doc sel = Except.ok [] := by
  intro doc sel q hq hz
  simp [extractE, hq, hz]

/-- C8 witness: selector ".missing" matches nothing in the example
document and extraction returns the empty sequence. -/
theorem c8_zero_matches_empty_witness :
    extractE exDoc ".missing" = Except.ok [] :=
  c8_zero_matches_empty exDoc ".missing" (SimpleSel.cls "missing") (by decide) (by decide)

/-- C9 counterexample: for a snapshot of two jobs the claim requires one
concurrent unit of work per job (two units); start_scraping spawns
exactly one background thread carrying the whole snapshot. -/
theorem c9_single_worker_counterexample :
    (start_scraping [("a", ".x"), ("b", ".y")]).length = 1
    ∧ ([("a", ".x"), ("b", ".y")] : List (String × String)).length = 2
    ∧ (1 : Nat) ≠ 2 := by decide

/-- C9 amended: start_scraping dispatches exactly ONE background worker
per run, carrying the entire snapshot; that single worker processes the
jobs sequentially in snapshot order, so the emitted outcome stream is
the concatenation of per-job outcome blocks in snapshot order — not one
concurrent unit of work per job. -/
theorem c9_sequential_batch :
    (∀ snap : List (String × String), start_scraping snap = [WorkUnit.batch snap])
    ∧ (∀ (fetch : String → Except String NodeList) (clock : Nat → Nat)
          (snap : List (String × String)) (k : Nat) (db : DB),
        (∀ p ∈ snap, (firstIdForUrl db p.1).isSome = true) →
        (scrape_thread fetch clock availAlways snap k db).emitted = runEmit fetch snap)
    ∧ (∀ (fetch : String → Except String NodeList) (p : String × String)
          (rest : List (String × String)),
        runEmit fetch (p :: rest)
          = (scrape_url fetch p.1 p.2).map (fun f => (p.1, f)) ++ runEmit fetch rest) := by
  refine ⟨fun _ => rfl, ?_, fun fetch p rest => rfl⟩
  intro fetch clock snap k db hres
  rw [scrape_thread_ok fetch clock snap k db hres]

/-- C9 witness: over the two-job store the single worker's outcome stream
is the first job's fragments followed by the second job's error
fragment, in snapshot order. -/
theorem c9_sequential_batch_witness :
    (scrape_thread fetchW clock0 availAlways snapW 0 dbW).emitted = runEmit fetchW snapW :=
  c9_sequential_batch.2.1 fetchW clock0 snapW 0 dbW (by decide)

/-- C10: under the precondition that every snapshot entry's url has at
least one matching row in the urls table, the unconditional
`fetchone()[0]` lookup never fails and the run completes; without the
precondition the None-indexing branch is reachable: on a snapshot whose
first entry's url is registered nowhere, the run aborts with the
TypeError before processing any further job, leaving the store
untouched. -/
theorem c10_lookup_precondition :
    (∀ (fetch : String → Except String NodeList) (clock : Nat → Nat)
        (snap : List (String × String)) (k : Nat) (db : DB),
        (∀ p ∈ snap, (firstIdForUrl db p.1).isSome = true) →
        (scrape_thread fetch clock availAlways snap k db).fatal = none)
    ∧ scrape_thread fetchW clock0 availAlways [("ghost", ".item"), ("good", ".item")] 0 dbW
        = ⟨dbW, [], some RunError.noneIndex⟩ := by
  constructor
  · intro fetch clock snap k db hres
    rw [scrape_thread_ok fetch clock snap k db hres]
  · decide

/-- C10 witness: over the two-job store whose snapshot urls are all
registered, the run never hits the None-indexing branch and completes. -/
theorem c10_lookup_precondition_witness :
    (scrape_thread fetchW clock0 availAlways snapW 0 dbW).fatal = none :=
  c10_lookup_precondition.1 fetchW clock0 snapW 0 dbW (by decide)

end ProductosWeb
